import Mathlib

/-!
Verification of the coastal notebooks (CoastSat → Dean-profile grid → buoy
wave statistics).  Cell values of the buoy table are modelled as exact
rationals; the Dean equilibrium profile, whose formula has a fractional
exponent, is modelled over the reals.
-/

namespace Coastal

/-! ## Buoy table and sentinel masking

The notebook removes missing data with
`X.mask((X==99.0) | (X==9999.0), inplace=True)`: every cell whose value
equals one of the sentinel codes 99.0 or 9999.0 is replaced by a
missing-value marker (NaN in pandas, `none` here); every other cell keeps
its value, and the shape of the table is unchanged. -/

/-- The sentinel test `(X==99.0) | (X==9999.0)` of the notebook, on one cell. -/
def isSentinel (v : ℚ) : Bool := v == 99 || v == 9999

/-- `X.mask` on one cell: a sentinel cell becomes the missing marker `none`,
any other cell keeps its value. -/
def maskCell (v : ℚ) : Option ℚ := if isSentinel v then none else some v

/-- `X.mask` on one column (or row) of the table. -/
def maskRow (col : List ℚ) : List (Option ℚ) := col.map maskCell

/-- `X.mask` on the whole table, cell by cell. -/
def maskTable (X : List (List ℚ)) : List (List (Option ℚ)) := X.map maskRow

/-- Cell access in a table: row `i`, column `j`, `none` when out of range. -/
def cellAt (T : List (List α)) (i j : ℕ) : Option α :=
  (T[i]?).bind (fun r => r[j]?)

/-- The entries of a masked column that are not missing, in order
(the values pandas statistics with `skipna` semantics actually see). -/
def validEntries (col : List (Option ℚ)) : List ℚ := col.filterMap id

/-- Dropping the sentinel-coded cells from a raw column directly. -/
def dropSentinels (col : List ℚ) : List ℚ := col.filter (fun v => !(isSentinel v))

/-- Arithmetic mean of a list of rationals (`sum / length`). -/
def listMean (l : List ℚ) : ℚ := l.sum / (l.length : ℚ)

/-- Mode of a list of rationals: a value of maximal multiplicity, the
smallest such value on ties (as `scipy.stats.mode` returns), `none` for an
empty list. -/
def listMode (l : List ℚ) : Option ℚ :=
  l.foldl
    (fun best v =>
      match best with
      | none => some v
      | some b =>
          if l.count b < l.count v || (l.count v == l.count b && v < b) then some v
          else some b)
    none

/-- `np.mean` of a masked pandas column: the mean of the non-missing entries. -/
def seriesMean (col : List (Option ℚ)) : ℚ := listMean (validEntries col)

/-- `scipy.stats.mode` of a masked pandas column: the mode of the
non-missing entries. -/
def seriesMode (col : List (Option ℚ)) : Option ℚ := listMode (validEntries col)

/-- The buoy time-series columns used by the notebook: wave height `WVHT`,
dominant period `DPD`, wave direction `WDIR`. -/
structure MeteoTable where
  WVHT : List ℚ
  DPD : List ℚ
  WDIR : List ℚ

/-- The wave-forcing preparation of the notebook: mask the sentinel codes,
then `Hs = np.mean(X.WVHT)`, `Tp = np.mean(X.DPD)`,
`Dir = stats.mode(X.WDIR)`. -/
def prepWaveData (X : MeteoTable) : ℚ × ℚ × Option ℚ :=
  (seriesMean (maskRow X.WVHT), seriesMean (maskRow X.DPD), seriesMode (maskRow X.WDIR))

/-! ## Cross-shore elevation profile (Dean profile)

The notebook imports `runmodels_functions as fun` and calls
`fun.shorelinetogrid(x, y, dx, dy)`; the file `runmodels_functions.py`
itself is not part of the sources available here, so the profile generator
is modelled from the specification. -/

/-- Modelled from the spec: the depth synthesized by
`runmodels_functions.shorelinetogrid` (source file not under `src/`) at
cross-shore distance `x` from the shoreline, `depth = A·x^m` with `A = 0.1`
and `m = 2/3`; an invalid (negative) distance is clamped to zero depth at
the shoreline. -/
noncomputable def deanDepth (x : ℝ) : ℝ :=
  if x < 0 then 0 else (1 / 10) * x ^ ((2 : ℝ) / 3)

/-- Minimum of a list of rationals (0 for the empty list). -/
def listMin : List ℚ → ℚ
  | [] => 0
  | a :: l => l.foldl min a

/-- Maximum of a list of rationals (0 for the empty list). -/
def listMax : List ℚ → ℚ
  | [] => 0
  | a :: l => l.foldl max a

/-- The x-coordinates of a shoreline point sequence. -/
def xsOf (pts : List (ℚ × ℚ)) : List ℚ := pts.map Prod.fst

/-- The y-coordinates of a shoreline point sequence. -/
def ysOf (pts : List (ℚ × ℚ)) : List ℚ := pts.map Prod.snd

/-- Number of grid nodes covering the interval `[lo, hi]` at cell size `d`:
the side of the bounding box divided by the cell size, plus the node at the
lower edge. -/
def gridSteps (lo hi d : ℚ) : ℕ := (⌊(hi - lo) / d⌋).toNat + 1

/-- Modelled from the spec: grid-column count of `shorelinetogrid`, from the
bounding box of the shoreline divided by `dx`. -/
def nxOf (pts : List (ℚ × ℚ)) (dx : ℚ) : ℕ :=
  gridSteps (listMin (xsOf pts)) (listMax (xsOf pts)) dx

/-- Modelled from the spec: grid-row count of `shorelinetogrid`, from the
bounding box of the shoreline divided by `dy`. -/
def nyOf (pts : List (ℚ × ℚ)) (dy : ℚ) : ℕ :=
  gridSteps (listMin (ysOf pts)) (listMax (ysOf pts)) dy

/-- Modelled from the spec: the 2-D array of grid x-coordinates returned by
`shorelinetogrid`, row `i` and column `j` holding `xmin + j·dx`. -/
def gridX (pts : List (ℚ × ℚ)) (dx dy : ℚ) : List (List ℚ) :=
  (List.range (nyOf pts dy)).map (fun _ =>
    (List.range (nxOf pts dx)).map (fun (j : ℕ) => listMin (xsOf pts) + (j : ℚ) * dx))

/-- Modelled from the spec: the 2-D array of grid y-coordinates returned by
`shorelinetogrid`, row `i` and column `j` holding `ymin + i·dy`. -/
def gridY (pts : List (ℚ × ℚ)) (dx dy : ℚ) : List (List ℚ) :=
  (List.range (nyOf pts dy)).map (fun (i : ℕ) =>
    (List.range (nxOf pts dx)).map (fun _ => listMin (ysOf pts) + (i : ℚ) * dy))

/-- Minimum of a list of reals (0 for the empty list). -/
noncomputable def listMinR : List ℝ → ℝ
  | [] => 0
  | a :: l => l.foldl min a

/-- Modelled from the spec: the cross-shore distance of a grid node from the
shoreline, the least Euclidean distance to a shoreline point. -/
noncomputable def distToShoreline (pts : List (ℚ × ℚ)) (gx gy : ℚ) : ℝ :=
  listMinR (pts.map (fun p =>
    Real.sqrt (((gx : ℝ) - (p.1 : ℝ)) ^ 2 + ((gy : ℝ) - (p.2 : ℝ)) ^ 2)))

/-- Modelled from the spec: the 2-D depth array returned by
`shorelinetogrid`, the Dean-profile depth at each node's cross-shore
distance from the shoreline. -/
noncomputable def gridElev (pts : List (ℚ × ℚ)) (dx dy : ℚ) : List (List ℝ) :=
  (List.range (nyOf pts dy)).map (fun (i : ℕ) =>
    (List.range (nxOf pts dx)).map (fun (j : ℕ) =>
      deanDepth (distToShoreline pts
        (listMin (xsOf pts) + (j : ℚ) * dx)
        (listMin (ysOf pts) + (i : ℚ) * dy))))

/-- Modelled from the spec: `runmodels_functions.shorelinetogrid` (source
file not under `src/`) — from a shoreline point sequence and cell sizes
`(dx, dy)`, the three co-indexed 2-D arrays `(xg, yg, elev)` covering the
bounding area of the shoreline at the requested resolution. -/
noncomputable def shorelinetogrid (pts : List (ℚ × ℚ)) (dx dy : ℚ) :
    List (List ℚ) × List (List ℚ) × List (List ℝ) :=
  (gridX pts dx dy, gridY pts dx dy, gridElev pts dx dy)

/-! ## Plain-text persistence of the reference shoreline

The notebook hands the digitized shoreline to the grid stage through
`np.savetxt(..., 'pt_coords.txt', ...)` and `np.loadtxt(...)`: one line per
point, the two coordinates of a point written as whitespace-separated
number tokens.  A file is modelled as its list of lines, each line as its
list of tokens; the textual rendering of one number is a parameter
(`fmt` when writing, `parse` when reading). -/

/-- `np.savetxt` on a 2-column shoreline array: one line per point, the two
coordinates formatted as tokens, in order. -/
def savetxt (fmt : ℚ → String) (A : List (ℚ × ℚ)) : List (List String) :=
  A.map (fun p => [fmt p.1, fmt p.2])

/-- `np.loadtxt` on one line: exactly two parseable tokens give a point. -/
def parseLine (parse : String → Option ℚ) : List String → Option (ℚ × ℚ)
  | [sx, sy] =>
      match parse sx, parse sy with
      | some x, some y => some (x, y)
      | _, _ => none
  | _ => none

/-- `np.loadtxt` on a whole file: every line parsed in order, failure if any
line is malformed. -/
def loadtxt (parse : String → Option ℚ) : List (List String) → Option (List (ℚ × ℚ))
  | [] => some []
  | l :: ls =>
      match parseLine parse l, loadtxt parse ls with
      | some p, some rest => some (p :: rest)
      | _, _ => none

/-! ## Helper lemmas -/

theorem validEntries_maskRow (col : List ℚ) :
    validEntries (maskRow col) = dropSentinels col := by
  induction col with
  | nil => rfl
  | cons a l ih =>
      by_cases h : isSentinel a
      · simp [maskRow, validEntries, dropSentinels, maskCell, h, List.filterMap_cons] at ih ⊢
        simpa [maskRow, validEntries, dropSentinels] using ih
      · simp [maskRow, validEntries, dropSentinels, maskCell, h, List.filterMap_cons] at ih ⊢
        simpa [maskRow, validEntries, dropSentinels] using ih

theorem isSentinel_iff (v : ℚ) : isSentinel v = true ↔ v = 99 ∨ v = 9999 := by
  simp [isSentinel]

theorem mem_validEntries_maskRow (col : List ℚ) (v : ℚ) :
    v ∈ validEntries (maskRow col) ↔ v ∈ col ∧ ¬(v = 99 ∨ v = 9999) := by
  rw [validEntries_maskRow]
  simp only [dropSentinels, List.mem_filter, Bool.not_eq_true', ← Bool.not_eq_true,
    isSentinel_iff]

theorem count_validEntries_maskRow (col : List ℚ) (v : ℚ)
    (hv : ¬(v = 99 ∨ v = 9999)) :
    (validEntries (maskRow col)).count v = col.count v := by
  rw [validEntries_maskRow]
  have hs : isSentinel v = false := by
    rw [← Bool.not_eq_true, isSentinel_iff]; exact hv
  simp [dropSentinels, List.count_filter, hs]

theorem cellAt_maskTable (X : List (List ℚ)) (i j : ℕ) :
    cellAt (maskTable X) i j = (cellAt X i j).map maskCell := by
  cases hX : X[i]? with
  | none => simp [cellAt, maskTable, List.getElem?_map, hX]
  | some r => simp [cellAt, maskTable, List.getElem?_map, hX, maskRow]

theorem deanDepth_of_nonneg {x : ℝ} (hx : 0 ≤ x) :
    deanDepth x = (1 / 10) * x ^ ((2 : ℝ) / 3) := by
  simp [deanDepth, not_lt.2 hx]

theorem deanDepth_nonneg (x : ℝ) : 0 ≤ deanDepth x := by
  unfold deanDepth
  split
  · exact le_refl 0
  · have hx : (0 : ℝ) ≤ x := not_lt.1 (by assumption)
    exact mul_nonneg (by norm_num) (Real.rpow_nonneg hx _)

end Coastal

open Coastal

/-- C1: masking the sentinel codes removes exactly the cells equal to 99.0
or 9999.0 from the mean and mode computations that follow: every sentinel
cell is excluded from the entries the statistics see, every other cell is
kept with its multiplicity, and the mean and the mode of the masked column
are exactly the mean and the mode of the column with the sentinel cells
dropped. -/
theorem sentinel_mask_exact (col : List ℚ) :
    (∀ v ∈ col, (v = 99 ∨ v = 9999) → v ∉ validEntries (maskRow col)) ∧
    (∀ v : ℚ, ¬(v = 99 ∨ v = 9999) →
      (validEntries (maskRow col)).count v = col.count v) ∧
    seriesMean (maskRow col) = listMean (dropSentinels col) ∧
    seriesMode (maskRow col) = listMode (dropSentinels col) := by
  refine ⟨?_, ?_, ?_, ?_⟩
  · intro v _ hv hmem
    rcases (mem_validEntries_maskRow col v).1 hmem with ⟨-, hnot⟩
    exact hnot hv
  · intro v hv
    exact count_validEntries_maskRow col v hv
  · simp [seriesMean, validEntries_maskRow]
  · simp [seriesMode, validEntries_maskRow]

theorem sentinel_mask_exact_witness :
    (99 : ℚ) ∉ validEntries (maskRow [1, 99, 2, 9999]) ∧
    (validEntries (maskRow [1, 99, 2, 9999])).count 2 =
      ([1, 99, 2, 9999] : List ℚ).count 2 :=
  ⟨(sentinel_mask_exact [1, 99, 2, 9999]).1 99 (by decide) (Or.inl rfl),
   (sentinel_mask_exact [1, 99, 2, 9999]).2.1 2 (by decide)⟩

/-- C6: the masked buoy series is reduced to exactly three scalars — the
mean of the wave-height column WVHT, the mean of the dominant-period column
DPD, and the mode of the wave-direction column WDIR — each computed over
the non-masked entries of its column. -/
theorem prep_wave_three_stats (X : MeteoTable) :
    prepWaveData X =
      (listMean (dropSentinels X.WVHT), listMean (dropSentinels X.DPD),
        listMode (dropSentinels X.WDIR)) := by
  simp [prepWaveData, seriesMean, seriesMode, validEntries_maskRow]

/-- C10: the sentinel-masking step changes only the cells equal to 99.0 or
9999.0 (replacing them with the missing marker); every other cell keeps its
value, and the shape of the table — number of rows, length of each row, and
their order — is unchanged: no rows are dropped. -/
theorem mask_frame_preserving (X : List (List ℚ)) :
    (maskTable X).length = X.length ∧
    (∀ i : ℕ, ((maskTable X)[i]?).map List.length = (X[i]?).map List.length) ∧
    (∀ i j : ℕ, cellAt (maskTable X) i j = (cellAt X i j).map maskCell) ∧
    (∀ i j : ℕ, ∀ v : ℚ, cellAt X i j = some v → ¬(v = 99 ∨ v = 9999) →
      cellAt (maskTable X) i j = some (some v)) ∧
    (∀ i j : ℕ, ∀ v : ℚ, cellAt X i j = some v → (v = 99 ∨ v = 9999) →
      cellAt (maskTable X) i j = some none) := by
  refine ⟨by simp [maskTable], ?_, cellAt_maskTable X, ?_, ?_⟩
  · intro i
    cases hX : X[i]? with
    | none => simp [maskTable, List.getElem?_map, hX]
    | some r => simp [maskTable, List.getElem?_map, hX, maskRow]
  · intro i j v hcell hv
    have hs : isSentinel v = false := by
      rw [← Bool.not_eq_true, isSentinel_iff]; exact hv
    rw [cellAt_maskTable, hcell]
    simp [maskCell, hs]
  · intro i j v hcell hv
    have hs : isSentinel v = true := (isSentinel_iff v).2 hv
    rw [cellAt_maskTable, hcell]
    simp [maskCell, hs]

theorem mask_frame_preserving_witness :
    cellAt (maskTable [[1, 99], [9999, 5]]) 0 0 = some (some 1) ∧
    cellAt (maskTable [[1, 99], [9999, 5]]) 1 0 = some none :=
  ⟨(mask_frame_preserving [[1, 99], [9999, 5]]).2.2.2.1 0 0 1 (by decide) (by decide),
   (mask_frame_preserving [[1, 99], [9999, 5]]).2.2.2.2 1 0 9999 (by decide)
     (Or.inr rfl)⟩

/-- C2: at cross-shore shoreline distance x = 0 the depth computed by the
cross-shore elevation profile generator equals 0. -/
theorem dean_depth_at_shoreline : deanDepth 0 = 0 := by
  rw [deanDepth_of_nonneg le_rfl, Real.zero_rpow (by norm_num : (2 : ℝ) / 3 ≠ 0),
    mul_zero]

/-- C3: the depth computed by the cross-shore elevation profile generator is
monotonically non-decreasing in the cross-shore distance: for all x1 x2 with
0 ≤ x1 ≤ x2, depth x1 ≤ depth x2. -/
theorem dean_depth_monotone (x1 x2 : ℝ) (h0 : 0 ≤ x1) (h12 : x1 ≤ x2) :
    deanDepth x1 ≤ deanDepth x2 := by
  rw [deanDepth_of_nonneg h0, deanDepth_of_nonneg (h0.trans h12)]
  exact mul_le_mul_of_nonneg_left
    (Real.rpow_le_rpow h0 h12 (by norm_num)) (by norm_num)

theorem dean_depth_monotone_witness : deanDepth 0 ≤ deanDepth 1 :=
  dean_depth_monotone 0 1 le_rfl zero_le_one

/-- C4: with the fixed constants A = 0.1 and m = 2/3 the depth at
cross-shore distance x = 1000 m is 0.1 × 1000^(2/3) = 10 m exactly (hence
approximately 10.0 m, the spec's reference scenario). -/
theorem dean_depth_at_1000 : deanDepth 1000 = 10 := by
  rw [deanDepth_of_nonneg (by norm_num)]
  have h1000 : (1000 : ℝ) = (10 : ℝ) ^ (3 : ℝ) := by
    rw [show (3 : ℝ) = ((3 : ℕ) : ℝ) by norm_num, Real.rpow_natCast]
    norm_num
  rw [h1000, ← Real.rpow_mul (by norm_num : (0 : ℝ) ≤ 10)]
  rw [show (3 : ℝ) * (2 / 3) = ((2 : ℕ) : ℝ) by norm_num, Real.rpow_natCast]
  norm_num

/-- C7: an invalid (negative) cross-shore distance is clamped to zero depth
at the shoreline, and this is the only error condition: every non-negative
distance is mapped to the Dean formula value with no failure. -/
theorem dean_depth_error_handling (x : ℝ) :
    (x < 0 → deanDepth x = 0) ∧
    (0 ≤ x → deanDepth x = (1 / 10) * x ^ ((2 : ℝ) / 3)) := by
  constructor
  · intro hx
    simp [deanDepth, hx]
  · intro hx
    exact deanDepth_of_nonneg hx

theorem dean_depth_error_handling_witness :
    deanDepth (-1) = 0 ∧ deanDepth 1 = (1 / 10) * (1 : ℝ) ^ ((2 : ℝ) / 3) :=
  ⟨(dean_depth_error_handling (-1)).1 neg_one_lt_zero,
   (dean_depth_error_handling 1).2 zero_le_one⟩

/-- C5: the three 2-D arrays returned by `shorelinetogrid` all have the same
shape; that shape is consistent with the bounding box of the input shoreline
divided by `(dx, dy)`; and every depth entry is a well-defined, non-negative
real number (in the exact-arithmetic model no entry can be NaN or Inf). -/
theorem shorelinetogrid_shape (pts : List (ℚ × ℚ)) (dx dy : ℚ)
    (hp : pts ≠ []) (hdx : 0 < dx) (hdy : 0 < dy) :
    (shorelinetogrid pts dx dy).1.length = nyOf pts dy ∧
    (shorelinetogrid pts dx dy).2.1.length = nyOf pts dy ∧
    (shorelinetogrid pts dx dy).2.2.length = nyOf pts dy ∧
    (∀ row ∈ (shorelinetogrid pts dx dy).1, row.length = nxOf pts dx) ∧
    (∀ row ∈ (shorelinetogrid pts dx dy).2.1, row.length = nxOf pts dx) ∧
    (∀ row ∈ (shorelinetogrid pts dx dy).2.2, row.length = nxOf pts dx) ∧
    nxOf pts dx = (⌊(listMax (xsOf pts) - listMin (xsOf pts)) / dx⌋).toNat + 1 ∧
    nyOf pts dy = (⌊(listMax (ysOf pts) - listMin (ysOf pts)) / dy⌋).toNat + 1 ∧
    (∀ row ∈ (shorelinetogrid pts dx dy).2.2, ∀ v ∈ row, 0 ≤ v) := by
  refine ⟨?_, ?_, ?_, ?_, ?_, ?_, rfl, rfl, ?_⟩
  · simp only [shorelinetogrid, gridX, List.length_map, List.length_range]
  · simp only [shorelinetogrid, gridY, List.length_map, List.length_range]
  · simp only [shorelinetogrid, gridElev, List.length_map, List.length_range]
  · intro row hrow
    simp only [shorelinetogrid, gridX] at hrow
    rcases List.mem_map.1 hrow with ⟨i, -, hi⟩
    simp only [← hi, List.length_map, List.length_range]
  · intro row hrow
    simp only [shorelinetogrid, gridY] at hrow
    rcases List.mem_map.1 hrow with ⟨i, -, hi⟩
    simp only [← hi, List.length_map, List.length_range]
  · intro row hrow
    simp only [shorelinetogrid, gridElev] at hrow
    rcases List.mem_map.1 hrow with ⟨i, -, hi⟩
    simp only [← hi, List.length_map, List.length_range]
  · intro row hrow v hv
    simp only [shorelinetogrid, gridElev] at hrow
    rcases List.mem_map.1 hrow with ⟨i, -, hi⟩
    rw [← hi] at hv
    rcases List.mem_map.1 hv with ⟨j, -, hj⟩
    rw [← hj]
    exact deanDepth_nonneg _

theorem shorelinetogrid_shape_witness :
    (shorelinetogrid [((0 : ℚ), (0 : ℚ)), (2, 3)] 1 1).1.length =
      nyOf [((0 : ℚ), (0 : ℚ)), (2, 3)] 1 :=
  (shorelinetogrid_shape [((0 : ℚ), (0 : ℚ)), (2, 3)] 1 1 (by decide) (by decide)
    (by decide)).1

/-- C9: writing a 2-column shoreline array with `np.savetxt` and reading it
back with `np.loadtxt` is a round trip: whenever the textual rendering of
each coordinate parses back to itself ("up to the text representation of
each number"), the reloaded point sequence equals the saved one, with one
line per point, preserving length and point order. -/
theorem savetxt_loadtxt_roundtrip (fmt : ℚ → String) (parse : String → Option ℚ)
    (A : List (ℚ × ℚ))
    (h : ∀ p ∈ A, parse (fmt p.1) = some p.1 ∧ parse (fmt p.2) = some p.2) :
    loadtxt parse (savetxt fmt A) = some A ∧ (savetxt fmt A).length = A.length := by
  refine ⟨?_, by simp [savetxt]⟩
  induction A with
  | nil => rfl
  | cons p l ih =>
      have hp := h p (List.mem_cons_self p l)
      have hl := ih (fun q hq => h q (List.mem_cons_of_mem p hq))
      show loadtxt parse ([fmt p.1, fmt p.2] :: savetxt fmt l) = some (p :: l)
      simp [loadtxt, parseLine, hp.1, hp.2, hl]

theorem savetxt_loadtxt_roundtrip_witness :
    loadtxt
      (fun s => if s = "1" then some 1 else if s = "2" then some 2 else
        if s = "3" then some 3 else if s = "4" then some 4 else none)
      (savetxt
        (fun q => if q = 1 then "1" else if q = 2 then "2" else
          if q = 3 then "3" else "4")
        [(1, 2), (3, 4)]) = some [(1, 2), (3, 4)] :=
  (savetxt_loadtxt_roundtrip _ _ [(1, 2), (3, 4)] (by decide)).1
